import Mathlib

/-
  Verification development for the MSLASH interpreter (src/main.py).

  The interpreter is shallowly embedded as follows.

  * A script line (after inline-comment stripping and trimming) is modelled
    as a pre-dispatched `Line` value: each constructor corresponds to one
    statement shape of the dispatcher in `execute` (main.py lines 93-425).
    The textual pattern matching (regexes) is modelled away: a `Line`
    carries the fields the matched pattern would have extracted.  The
    console statements `input`, `math`, `emptyline`, `pause` and `help`
    are outside the scope of the claims and are not given constructors.

  * The `${...}` interpolation step (`substitute_vars`) is modelled away:
    wherever main.py evaluates `safe_eval(substitute_vars(text, vars),
    vars)` the embedding evaluates a structured expression `Expr`
    directly with `safe_eval`.

  * Python's `eval` over the restricted builtins is modelled by `rawEval`,
    which either produces a value or raises an `EvalError` (NameError,
    TypeError, AttributeError).  `safe_eval` wraps it with the
    `try/except: return None` of main.py lines 64-67.  Python's `None`
    value is `Value.none`; an evaluation failure and an evaluation that
    legitimately produces `None` are therefore indistinguishable to the
    callers, exactly as in the source.

  * Python dictionaries (variable environments, attribute maps, the
    FUNCTIONS/CLASSES registries, the mock filesystem) are association
    lists with overwrite-on-set (`setA`) and first-match lookup (`getA`).
    In-place mutation of the caller-visible `vars` dict is modelled
    by threading the environment through `execute` and back to the caller
    exactly where Python aliases the same dict, and by NOT threading it
    where Python passes a fresh dict (calls) or a copy (loop iterations).

  * MSlashObject instances are mutable and shared by reference in Python;
    the embedding gives them a heap (`St.heap`), with `Value.inst` holding
    a heap index.  `dict.copy()` copies only bindings, never heap objects.

  * The mutually recursive `execute` / `load_module` / per-iteration loop
    runner `runLoop` are defined by mutual structural recursion on a fuel
    counter, so that closed computations reduce by `rfl`/`decide`.  Fuel
    exhaustion is reported with the distinct outcome `Flow.fuelOut`;
    Python has no fuel and instead may exhaust the host stack
    (spec section 5).

  * Diagnostic messages keep the wording of main.py with quotes and line
    numbers omitted (the embedding keeps no absolute line numbers).
-/

namespace MSlash

/-- A runtime value.  `none` is Python's `None`; `inst r` is a reference to
the heap object at index `r` (MSlashObject identity).  Lists and dicts are
outside the scope of the claims and are not modelled. -/
inductive Value where
  | none : Value
  | int : Int → Value
  | str : String → Value
  | bool : Bool → Value
  | inst : Nat → Value
deriving DecidableEq

/-- An MSlash expression, as handed to `safe_eval` (main.py line 41): a
literal (covering the whitelisted `True`/`False`/`None` builtins and
numeric/string literals), a bare-name lookup, `+`, and attribute access
`e.field` on an instance. -/
inductive Expr where
  | lit : Value → Expr
  | name : String → Expr
  | add : Expr → Expr → Expr
  | attr : Expr → String → Expr
deriving DecidableEq

/-- The exceptions Python's `eval` can raise in the modelled fragment. -/
inductive EvalError where
  | nameError : String → EvalError
  | typeError : EvalError
  | attributeError : String → EvalError
deriving DecidableEq

/-- `MSlashObject` (main.py lines 69-91): a class-name tag plus a mutable,
dynamically keyed attribute map. -/
structure Obj where
  className : String
  attributes : List (String × Value)
deriving DecidableEq

/-- A variable environment: one Python `vars` dict. -/
abbrev Env := List (String × Value)

/-- Dictionary write: overwrite-on-set, as for a Python dict. -/
def setA {α : Type} (m : List (String × α)) (k : String) (v : α) :
    List (String × α) :=
  (k, v) :: m.filter (fun p => p.1 != k)

/-- Dictionary read, `None` on a missing key modelled as `Option.none`. -/
def getA {α : Type} (m : List (String × α)) (k : String) : Option α :=
  (m.find? (fun p => p.1 == k)).map (fun p => p.2)

/-- One comment-stripped, trimmed script line, pre-dispatched on the
statement shapes of `execute` (main.py lines 111-422) and of the
preprocessor. `blank` is an empty (or comment-only) line. -/
inductive Line where
  | blank : Line
  | steal : String → String → Line
  | funcCall : String → List Expr → Line
  | varNew : String → String → List Expr → Line
  | methodCall : Expr → String → List Expr → Line
  | varThisAttr : String → Expr → Line
  | varCall : String → String → List Expr → Line
  | varAssign : String → Expr → Line
  | say : String → Expr → Line
  | ret : Expr → Line
  | breakL : Line
  | ifL : Expr → Line
  | elseL : Line
  | endifL : Line
  | loopL : Expr → Line
  | endloopL : Line
  | funcL : String → List String → Line
  | endfuncL : Line
  | classL : String → Line
  | endclassL : Line
deriving DecidableEq

/-- A stored function blueprint (`FUNCTIONS[name]`, main.py line 461):
declared parameter names plus raw body lines. -/
structure FuncInfo where
  args : List String
  body : List Line
deriving DecidableEq

/-- A stored class blueprint (`CLASSES[name]`, main.py line 548). -/
structure ClassInfo where
  methods : List (String × FuncInfo)
deriving DecidableEq

/-- The interpreter state: the instance heap, the process-wide FUNCTIONS
and CLASSES registries, the console output transcript, and a mock
filesystem mapping module paths to their raw lines (for `load_module`). -/
structure St where
  heap : List Obj
  funcs : List (String × FuncInfo)
  classes : List (String × ClassInfo)
  output : List String
  fs : List (String × List Line)
deriving DecidableEq

/-- Append one printed line to the console transcript. -/
def addOut (st : St) (s : String) : St :=
  { st with output := st.output ++ [s] }

/-- `FUNCTIONS[symbol] = ...` (main.py line 129). -/
def setFun (st : St) (k : String) (fi : FuncInfo) : St :=
  { st with funcs := setA st.funcs k fi }

/-- `CLASSES[symbol] = ...` (main.py line 132). -/
def setCls (st : St) (k : String) (ci : ClassInfo) : St :=
  { st with classes := setA st.classes k ci }

/-- `instance.attributes[attr] = value`: update one heap object in place
(main.py lines 229 and 87-91). -/
def setAttr (st : St) (r : Nat) (field : String) (v : Value) : St :=
  match st.heap.get? r with
  | some ob =>
      { st with heap := st.heap.set r { ob with attributes := setA ob.attributes field v } }
  | Option.none => st

/-- Python truthiness of a value, for `if result:` (main.py line 356). -/
def truthy : Value → Bool
  | Value.none => false
  | Value.bool b => b
  | Value.int n => n != 0
  | Value.str s => s != ""
  | Value.inst _ => true

/-- `str(value)` as used by `say` (main.py lines 34, 283). -/
def display (st : St) : Value → String
  | Value.none => "None"
  | Value.int n => toString n
  | Value.str s => s
  | Value.bool true => "True"
  | Value.bool false => "False"
  | Value.inst r =>
      "<instance of " ++ (st.heap.getD r ⟨"", []⟩).className ++ ">"

/-- Build `eval_locals` (main.py lines 59-62): copy the variable dict and,
when `this` is bound to an instance, flatten its attribute map over it. -/
def evalLocals (st : St) (vars : Env) : Env :=
  match getA vars "this" with
  | some (Value.inst r) =>
      (st.heap.getD r ⟨"", []⟩).attributes.foldl
        (fun e p => setA e p.1 p.2) vars
  | _ => vars

/-- Python's `eval(expression, eval_globals, eval_locals)` on the modelled
expression fragment: produces a value or raises an `EvalError`. -/
def rawEval (st : St) (locals : Env) : Expr → Except EvalError Value
  | Expr.lit v => Except.ok v
  | Expr.name s =>
      match getA locals s with
      | some v => Except.ok v
      | Option.none => Except.error (EvalError.nameError s)
  | Expr.add a b =>
      match rawEval st locals a, rawEval st locals b with
      | Except.ok (Value.int x), Except.ok (Value.int y) =>
          Except.ok (Value.int (x + y))
      | Except.ok (Value.str x), Except.ok (Value.str y) =>
          Except.ok (Value.str (x ++ y))
      | Except.error e, _ => Except.error e
      | _, Except.error e => Except.error e
      | _, _ => Except.error EvalError.typeError
  | Expr.attr e f =>
      match rawEval st locals e with
      | Except.ok (Value.inst r) =>
          match getA (st.heap.getD r ⟨"", []⟩).attributes f with
          | some v => Except.ok v
          | Option.none => Except.error (EvalError.attributeError f)
      | Except.ok _ => Except.error (EvalError.attributeError f)
      | Except.error err => Except.error err

/-- `safe_eval` (main.py lines 41-67): build the locals, delegate to the
host evaluator, and turn any raised error into `None`. -/
def safe_eval (st : St) (vars : Env) (e : Expr) : Value :=
  match rawEval st (evalLocals st vars) e with
  | Except.ok v => v
  | Except.error _ => Value.none

/-- Is the line a block opener for depth-matching scans?  Mirrors
`scan_line.startswith(("if ", "loop ", "func ", "class "))`
(main.py lines 340, 379). -/
def isOpener : Line → Bool
  | Line.ifL _ => true
  | Line.loopL _ => true
  | Line.funcL _ _ => true
  | Line.classL _ => true
  | _ => false

/-- Is the line a block closer?  Mirrors
`scan_line in ["endif", "endloop", "endfunc", "endclass"]`
(main.py lines 342, 381). -/
def isCloser : Line → Bool
  | Line.endifL => true
  | Line.endloopL => true
  | Line.endfuncL => true
  | Line.endclassL => true
  | _ => false

/-- Is the line a bare `else`? -/
def isElse : Line → Bool
  | Line.elseL => true
  | _ => false

/-- The forward scan of an `if` statement (main.py lines 333-349), over the
lines following the opener: returns (position of the first depth-zero
closer if any, position of the last depth-zero `else` seen before it).
`i` is the index of the current line, `nest` the nesting counter. -/
def scanIf : List Line → Nat → Nat → Option Nat → Option Nat × Option Nat
  | [], _, _, elsePos => (Option.none, elsePos)
  | l :: ls, i, nest, elsePos =>
    if isOpener l then scanIf ls (i + 1) (nest + 1) elsePos
    else if isCloser l then
      if nest == 0 then (some i, elsePos)
      else scanIf ls (i + 1) (nest - 1) elsePos
    else if isElse l && nest == 0 then scanIf ls (i + 1) nest (some i)
    else scanIf ls (i + 1) nest elsePos

/-- The forward scan of a `loop` statement (main.py lines 374-386):
position of the first depth-zero closer, if any. -/
def scanLoop : List Line → Nat → Nat → Option Nat
  | [], _, _ => Option.none
  | l :: ls, i, nest =>
    if isOpener l then scanLoop ls (i + 1) (nest + 1)
    else if isCloser l then
      if nest == 0 then some i
      else scanLoop ls (i + 1) (nest - 1)
    else scanLoop ls (i + 1) nest

/-- A line sequence is a well-nested loop body at starting depth `d`:
scanning it never reaches a closer at depth zero and ends back at depth
zero (so the closer appended after it is the one the scan finds). -/
def loopBodyOk : List Line → Nat → Bool
  | [], d => d == 0
  | l :: ls, d =>
    if isOpener l then loopBodyOk ls (d + 1)
    else if isCloser l then
      match d with
      | 0 => false
      | d' + 1 => loopBodyOk ls d'
    else loopBodyOk ls d

/-- A line sequence is a well-nested `if` branch at starting depth `d`:
as `loopBodyOk`, and additionally it contains no depth-zero `else`. -/
def ifBranchOk : List Line → Nat → Bool
  | [], d => d == 0
  | l :: ls, d =>
    if isOpener l then ifBranchOk ls (d + 1)
    else if isCloser l then
      match d with
      | 0 => false
      | d' + 1 => ifBranchOk ls d'
    else if isElse l && d == 0 then false
    else ifBranchOk ls d

/-- `dict(zip(arg_names, arg_values))` merged over a base dict, as in
`local_vars = {'this': obj}; local_vars.update(dict(zip(...)))`
(main.py lines 153, 177-178, 209-210, 257).  Zip truncates silently. -/
def bindArgs (names : List String) (vals : List Value) (base : Env) : Env :=
  (names.zip vals).foldl (fun e p => setA e p.1 p.2) base

/-- Diagnostic of main.py line 150 / 253 (wrong argument count). -/
def msgArgCount (f : String) : String :=
  "Error: Function " ++ f ++ " got the wrong number of arguments."

/-- Diagnostic of main.py line 422 (unknown statement). -/
def msgUnknown : String :=
  "Unknown command or syntax error."

/-- Diagnostic of main.py line 186 (undefined class). -/
def msgClassUndef (c : String) : String :=
  "Error: Class " ++ c ++ " is not defined."

/-- Diagnostic of main.py line 216 (method not found / class missing). -/
def msgNoMethod (m : String) : String :=
  "Error: Method " ++ m ++ " not found on object."

/-- Diagnostic of main.py line 218 (receiver is not an instance). -/
def msgNotObject : String :=
  "Error: expression did not evaluate to an object."

/-- Diagnostic of main.py line 234 (`this` outside a method). -/
def msgThisOutside : String :=
  "Error: this can only be used inside a class method."

/-- Diagnostic of main.py line 274 (failed general assignment). -/
def msgBadVar (n : String) : String :=
  "Syntax Error or invalid value for variable " ++ n ++ "."

/-- Diagnostic of main.py line 352 (if without endif). -/
def msgNoEndif : String :=
  "Syntax Error: if has no matching endif."

/-- Diagnostic of main.py line 389 (loop without endloop). -/
def msgNoEndloop : String :=
  "Syntax Error: loop has no matching endloop."

/-- Diagnostic of main.py line 370 (unparsable loop count). -/
def msgBadLoop : String :=
  "Syntax Error: Invalid loop syntax."

/-- Diagnostic of main.py line 135 (symbol not found in module). -/
def msgImportNotFound (s p : String) : String :=
  "Import Error: " ++ s ++ " not found in " ++ p ++ "."

/-- Diagnostic of main.py line 137 (module file not found). -/
def msgFileNotFound (p : String) : String :=
  "Import Error: Module file " ++ p ++ " not found."

/-- Console line of main.py line 319 (`break`). -/
def msgBreak : String :=
  "--- Script terminated by break ---"

/-- The kind of construct the preprocessor is currently capturing. -/
inductive Construct where
  | cls : Construct
  | fn : Construct
deriving DecidableEq

/-- State of the method scanner of `preprocess_class_body`
(main.py lines 506-548). -/
structure PCB where
  methods : List (String × FuncInfo)
  inMethod : Bool
  methodName : String
  methodArgs : List String
  methodBody : List Line
  nestLevel : Nat
deriving DecidableEq

/-- Nesting bump inside a method body (main.py lines 540-546): only
`if `/`loop ` openers and `endif`/`endloop` closers are counted there. -/
def bumpMethodNest (l : Line) (n : Nat) : Nat :=
  match l with
  | Line.ifL _ => n + 1
  | Line.loopL _ => n + 1
  | Line.endifL => if n > 0 then n - 1 else n
  | Line.endloopL => if n > 0 then n - 1 else n
  | _ => n

/-- One step of `preprocess_class_body`'s loop over the class body lines
(main.py lines 515-546). -/
def pcbStep (s : PCB) (l : Line) : PCB :=
  match l with
  | Line.funcL name fargs =>
    if s.inMethod then
      { s with methodBody := s.methodBody ++ [l], nestLevel := s.nestLevel + 1 }
    else
      { s with inMethod := true, methodName := name, methodArgs := fargs,
               methodBody := [], nestLevel := 0 }
  | Line.endfuncL =>
    if s.inMethod && s.nestLevel == 0 then
      { s with methods := setA s.methods s.methodName ⟨s.methodArgs, s.methodBody⟩,
               inMethod := false, methodBody := [] }
    else if s.inMethod then
      { s with methodBody := s.methodBody ++ [l], nestLevel := s.nestLevel - 1 }
    else s
  | _ =>
    if s.inMethod then
      { s with methodBody := s.methodBody ++ [l],
               nestLevel := bumpMethodNest l s.nestLevel }
    else s

/-- `preprocess_class_body` (main.py lines 506-548): scan a captured class
body for `func`/`endfunc` pairs and collect the method blueprints.
Console diagnostics of the preprocessor are not modelled. -/
def preprocess_class_body (classLines : List Line) : List (String × FuncInfo) :=
  (classLines.foldl pcbStep ⟨[], false, "", [], [], 0⟩).methods

/-- State of the scanner of `preprocess_script` (main.py lines 427-504). -/
structure PP where
  mainCode : List Line
  inConstruct : Option Construct
  constructName : String
  constructBody : List Line
  nestLevel : Nat
  currentClassName : String
  funcs : List (String × FuncInfo)
  classes : List (String × ClassInfo)
deriving DecidableEq

/-- Nesting bump inside a captured construct for lines that are not
`class`/`func`/`endclass`/`endfunc` themselves (main.py lines 492-498). -/
def bumpScriptNest (l : Line) (n : Nat) : Nat :=
  match l with
  | Line.ifL _ => n + 1
  | Line.loopL _ => n + 1
  | Line.endifL => if n > 0 then n - 1 else n
  | Line.endloopL => if n > 0 then n - 1 else n
  | _ => n

/-- One step of `preprocess_script`'s loop (main.py lines 439-502).
A `func` header registers the blueprint immediately with an empty body
(line 461); the body is filled in at the matching `endfunc` (line 483).
Console diagnostics of the preprocessor are not modelled. -/
def ppStep (s : PP) (l : Line) : PP :=
  match l with
  | Line.classL name =>
    if s.inConstruct.isNone then
      { s with inConstruct := some Construct.cls, currentClassName := name,
               constructBody := [], nestLevel := 0 }
    else
      { s with constructBody := s.constructBody ++ [l], nestLevel := s.nestLevel + 1 }
  | Line.funcL name fargs =>
    if s.inConstruct.isNone then
      { s with inConstruct := some Construct.fn, constructName := name,
               funcs := setA s.funcs name ⟨fargs, []⟩,
               constructBody := [], nestLevel := 0 }
    else
      { s with constructBody := s.constructBody ++ [l], nestLevel := s.nestLevel + 1 }
  | Line.endclassL =>
    if s.inConstruct == some Construct.cls && s.nestLevel == 0 then
      { s with classes := setA s.classes s.currentClassName
                 ⟨preprocess_class_body s.constructBody⟩,
               inConstruct := Option.none, constructBody := [], currentClassName := "" }
    else if s.inConstruct.isSome then
      { s with constructBody := s.constructBody ++ [l], nestLevel := s.nestLevel - 1 }
    else s
  | Line.endfuncL =>
    if s.inConstruct.isSome && s.nestLevel == 0 then
      let funcs' :=
        if s.inConstruct == some Construct.fn then
          match getA s.funcs s.constructName with
          | some fi => setA s.funcs s.constructName ⟨fi.args, s.constructBody⟩
          | Option.none => s.funcs
        else s.funcs
      { s with funcs := funcs', inConstruct := Option.none, constructBody := [] }
    else if s.inConstruct.isSome then
      { s with constructBody := s.constructBody ++ [l], nestLevel := s.nestLevel - 1 }
    else s
  | _ =>
    if s.inConstruct.isSome then
      { s with constructBody := s.constructBody ++ [l],
               nestLevel := bumpScriptNest l s.nestLevel }
    else
      { s with mainCode := s.mainCode ++ [l] }

/-- `preprocess_script` (main.py lines 427-504): extract function and class
blueprints into the given registries and return the residual main lines
together with the updated registries. -/
def preprocess_script (allLines : List Line)
    (funcs0 : List (String × FuncInfo)) (classes0 : List (String × ClassInfo)) :
    List Line × List (String × FuncInfo) × List (String × ClassInfo) :=
  let s := allLines.foldl ppStep ⟨[], Option.none, "", [], 0, "", funcs0, classes0⟩
  (s.mainCode, s.funcs, s.classes)

/-- How one `execute` invocation finishes: `next v` is a normal return of
value `v` to the caller (Python returns `None` when it falls off the end,
so `next Value.none` covers both a bare end and `return None`);
`exited` is `sys.exit()` raised by `break`; `fuelOut` is fuel exhaustion
(an artifact of the embedding, see the header comment). -/
inductive Flow where
  | next : Value → Flow
  | exited : Flow
  | fuelOut : Flow
deriving DecidableEq

/-- How `load_module` finishes: the returned (variables, functions,
classes) triple, `FileNotFoundError`, a propagated `sys.exit`, or fuel
exhaustion. -/
inductive LoadRes where
  | ok : Env → List (String × FuncInfo) → List (String × ClassInfo) → LoadRes
  | fileNotFound : LoadRes
  | exited : LoadRes
  | fuelOut : LoadRes
deriving DecidableEq

mutual

/-- `execute(lines, variables)` (main.py lines 93-425), fuel-indexed: the
returned triple is the final content of the `variables` dict, the state,
and how the invocation finished.  Every recursive call passes the fuel of
the enclosing `fuel + 1` pattern. -/
def execute : Nat → List Line → Env → St → Env × St × Flow
  | 0, _, env, st => (env, st, Flow.fuelOut)
  | fuel + 1, lines, env, st =>
    match lines with
    | [] => (env, st, Flow.next Value.none)
    | l :: rest =>
      match l with
      | Line.blank =>
        -- empty line: skipped (main.py lines 104-106)
        execute fuel rest env st
      | Line.steal symbol path =>
        -- `steal SYMBOL from PATH` (main.py lines 116-139): variables,
        -- then functions, then classes; first match wins.
        match load_module fuel st path with
        | (LoadRes.ok mv mf mc, st2) =>
          match getA mv symbol with
          | some v => execute fuel rest (setA env symbol v) st2
          | Option.none =>
            match getA mf symbol with
            | some fi => execute fuel rest env (setFun st2 symbol fi)
            | Option.none =>
              match getA mc symbol with
              | some ci => execute fuel rest env (setCls st2 symbol ci)
              | Option.none =>
                execute fuel rest env (addOut st2 (msgImportNotFound symbol path))
        | (LoadRes.fileNotFound, st2) =>
          execute fuel rest env (addOut st2 (msgFileNotFound path))
        | (LoadRes.exited, st2) => (env, st2, Flow.exited)
        | (LoadRes.fuelOut, st2) => (env, st2, Flow.fuelOut)
      | Line.funcCall fname args =>
        -- bare call statement (main.py lines 141-155); if `fname` is not a
        -- known function the line falls through the dispatcher to the
        -- unknown-command diagnostic (line 422).
        match getA st.funcs fname with
        | some fi =>
          if args.length != fi.args.length then
            execute fuel rest env (addOut st (msgArgCount fname))
          else
            match execute fuel fi.body (bindArgs fi.args (args.map (safe_eval st env)) []) st with
            | (_, st2, Flow.next _) => execute fuel rest env st2
            | (_, st2, Flow.exited) => (env, st2, Flow.exited)
            | (_, st2, Flow.fuelOut) => (env, st2, Flow.fuelOut)
        | Option.none => execute fuel rest env (addOut st msgUnknown)
      | Line.varNew name cls args =>
        -- `var NAME = new CLASS(args)` (main.py lines 157-190).  Note: no
        -- argument-count check; `dict(zip(...))` truncates silently.
        match getA st.classes cls with
        | some ci =>
          match getA ci.methods "init" with
          | some initf =>
            match execute fuel initf.body
                (bindArgs initf.args
                  (args.map (safe_eval { st with heap := st.heap ++ [⟨cls, []⟩] } env))
                  [("this", Value.inst st.heap.length)])
                { st with heap := st.heap ++ [⟨cls, []⟩] } with
            | (_, st2, Flow.next _) =>
              execute fuel rest (setA env name (Value.inst st.heap.length)) st2
            | (_, st2, Flow.exited) => (env, st2, Flow.exited)
            | (_, st2, Flow.fuelOut) => (env, st2, Flow.fuelOut)
          | Option.none =>
            execute fuel rest (setA env name (Value.inst st.heap.length))
              { st with heap := st.heap ++ [⟨cls, []⟩] }
        | Option.none => execute fuel rest env (addOut st (msgClassUndef cls))
      | Line.methodCall obj m args =>
        -- method-call statement (main.py lines 192-218).  Note: no
        -- argument-count check here either; the return value is dropped.
        match safe_eval st env obj with
        | Value.inst r =>
          match getA st.classes (st.heap.getD r ⟨"", []⟩).className with
          | some ci =>
            match getA ci.methods m with
            | some mi =>
              match execute fuel mi.body
                  (bindArgs mi.args (args.map (safe_eval st env)) [("this", Value.inst r)]) st with
              | (_, st2, Flow.next _) => execute fuel rest env st2
              | (_, st2, Flow.exited) => (env, st2, Flow.exited)
              | (_, st2, Flow.fuelOut) => (env, st2, Flow.fuelOut)
            | Option.none => execute fuel rest env (addOut st (msgNoMethod m))
          | Option.none => execute fuel rest env (addOut st (msgNoMethod m))
        | _ => execute fuel rest env (addOut st msgNotObject)
      | Line.varThisAttr field e =>
        -- `var this.ATTR = EXPR` (main.py lines 222-234): stores the
        -- evaluated value unconditionally, even `None`.
        match getA env "this" with
        | some (Value.inst r) =>
          execute fuel rest env (setAttr st r field (safe_eval st env e))
        | _ => execute fuel rest env (addOut st msgThisOutside)
      | Line.varCall name fname args =>
        -- `var NAME = FUNC(args)` with FUNC a known function
        -- (main.py lines 244-261); a count mismatch stores None after the
        -- diagnostic (line 254).  When FUNC is unknown the line is treated
        -- as a general assignment whose expression fails to evaluate
        -- (lines 263-274; the builtin-conversion corner is not modelled).
        match getA st.funcs fname with
        | some fi =>
          if args.length != fi.args.length then
            execute fuel rest (setA env name Value.none) (addOut st (msgArgCount fname))
          else
            match execute fuel fi.body (bindArgs fi.args (args.map (safe_eval st env)) []) st with
            | (_, st2, Flow.next rv) => execute fuel rest (setA env name rv) st2
            | (_, st2, Flow.exited) => (env, st2, Flow.exited)
            | (_, st2, Flow.fuelOut) => (env, st2, Flow.fuelOut)
        | Option.none => execute fuel rest env (addOut st (msgBadVar name))
      | Line.varAssign name e =>
        -- general `var NAME = EXPR` (main.py lines 263-276): a `None`
        -- result (failure or the literal `None`) is rejected with a
        -- diagnostic and no binding.
        match safe_eval st env e with
        | Value.none => execute fuel rest env (addOut st (msgBadVar name))
        | v => execute fuel rest (setA env name v) st
      | Line.say raw e =>
        -- `say` (main.py lines 278-285): print the value, or the
        -- (interpolated) raw text when evaluation failed.
        match safe_eval st env e with
        | Value.none => execute fuel rest env (addOut st raw)
        | v => execute fuel rest env (addOut st (display st v))
      | Line.ret e =>
        -- `return EXPR` (main.py lines 322-326): ends this invocation.
        (env, st, Flow.next (safe_eval st env e))
      | Line.breakL =>
        -- `break` (main.py lines 318-320): message, then sys.exit().
        (env, addOut st msgBreak, Flow.exited)
      | Line.ifL c =>
        -- `if COND` (main.py lines 328-363): scan for else/endif, run the
        -- chosen branch against the same environment, resume after endif.
        -- The nested invocation's return value is DISCARDED (lines 358,
        -- 361 ignore the result of `execute`).
        match scanIf rest 0 0 Option.none with
        | (Option.none, _) => (env, addOut st msgNoEndif, Flow.next Value.none)
        | (some endPos, elsePos) =>
          if truthy (safe_eval st env c) then
            match execute fuel (rest.take (match elsePos with
                | some e' => e'
                | Option.none => endPos)) env st with
            | (env', st', Flow.next _) =>
              execute fuel (rest.drop (endPos + 1)) env' st'
            | (env', st', Flow.exited) => (env', st', Flow.exited)
            | (env', st', Flow.fuelOut) => (env', st', Flow.fuelOut)
          else
            match elsePos with
            | some ep =>
              match execute fuel ((rest.drop (ep + 1)).take (endPos - (ep + 1))) env st with
              | (env', st', Flow.next _) =>
                execute fuel (rest.drop (endPos + 1)) env' st'
              | (env', st', Flow.exited) => (env', st', Flow.exited)
              | (env', st', Flow.fuelOut) => (env', st', Flow.fuelOut)
            | Option.none => execute fuel (rest.drop (endPos + 1)) env st
      | Line.loopL t =>
        -- `loop N` (main.py lines 365-396): parse the count, scan for the
        -- closer, run the iterations, resume after endloop with the
        -- caller's own environment.  An unparsable count prints a
        -- diagnostic and FALLS THROUGH into the body lines (lines 371-372).
        match safe_eval st env t with
        | Value.int n =>
          match scanLoop rest 0 0 with
          | Option.none => (env, addOut st msgNoEndloop, Flow.next Value.none)
          | some endPos =>
            match runLoop fuel (rest.take endPos) env n.toNat st with
            | (st', Option.none) => execute fuel (rest.drop (endPos + 1)) env st'
            | (st', some f) => (env, st', f)
        | _ => execute fuel rest env (addOut st msgBadLoop)
      | Line.elseL => execute fuel rest env st
      | Line.endifL => execute fuel rest env st
      | Line.endloopL => execute fuel rest env st
      | Line.endfuncL => execute fuel rest env st
      | Line.endclassL => execute fuel rest env st
      | Line.funcL _ _ => execute fuel rest env (addOut st msgUnknown)
      | Line.classL _ => execute fuel rest env (addOut st msgUnknown)

/-- `load_module(module_path)` (main.py lines 550-575), fuel-indexed: swap
in fresh registries, preprocess and execute the module file against a
fresh environment, capture the (variables, functions, classes) triple,
and restore the caller's registries on every exit path (the `finally`). -/
def load_module : Nat → St → String → LoadRes × St
  | 0, st, _ => (LoadRes.fuelOut, st)
  | fuel + 1, st, path =>
    match getA st.fs path with
    | Option.none => (LoadRes.fileNotFound, st)
    | some fileLines =>
      let pp := preprocess_script fileLines [] []
      match execute fuel pp.1 [] { st with funcs := pp.2.1, classes := pp.2.2 } with
      | (mvars, st2, Flow.next _) =>
        (LoadRes.ok mvars st2.funcs st2.classes,
         { st2 with funcs := st.funcs, classes := st.classes })
      | (_, st2, Flow.exited) =>
        (LoadRes.exited, { st2 with funcs := st.funcs, classes := st.classes })
      | (_, st2, Flow.fuelOut) =>
        (LoadRes.fuelOut, { st2 with funcs := st.funcs, classes := st.classes })

/-- The iteration runner of a `loop` block, fuel-indexed:
`for _ in range(times): execute(loop_code, variables.copy())`
(main.py lines 394-395).  Each iteration receives the same caller
environment `env` (the per-iteration `variables.copy()` of the unchanged
caller dict) and its resulting environment is discarded; only the state
(heap, registries, output) threads through.  `none` means all iterations
completed normally. -/
def runLoop : Nat → List Line → Env → Nat → St → St × Option Flow
  | 0, _, _, _, st => (st, some Flow.fuelOut)
  | fuel + 1, body, env, k, st =>
    match k with
    | 0 => (st, Option.none)
    | k' + 1 =>
      match execute fuel body env st with
      | (_, st', Flow.next _) => runLoop fuel body env k' st'
      | (_, st', Flow.exited) => (st', some Flow.exited)
      | (_, st', Flow.fuelOut) => (st', some Flow.fuelOut)

end

/-- An empty interpreter state. -/
def st0 : St := { heap := [], funcs := [], classes := [], output := [], fs := [] }

/-- A registry with one function `f` whose body is `if True` / `return 5`
/ `endif` (and nothing after the `endif`). -/
def c1st : St :=
  { st0 with funcs := [("f", ⟨[],
      [Line.ifL (Expr.lit (Value.bool true)),
       Line.ret (Expr.lit (Value.int 5)),
       Line.endifL]⟩)] }

/-- The `init` blueprint of the C2 example class: one declared parameter
`a`, body `var this.x = a`. -/
def c2init : FuncInfo := ⟨["a"], [Line.varThisAttr "x" (Expr.name "a")]⟩

/-- A registry with one class `C` whose `init` declares one parameter. -/
def c2st : St := { st0 with classes := [("C", ⟨[("init", c2init)]⟩)] }

/-- A state with one function `f(a)`, one class `K` with a parameterless
method `mm` whose body is empty, and one `K` instance on the heap. -/
def c5st : St :=
  { st0 with
    heap := [⟨"K", []⟩],
    funcs := [("f", ⟨["a"], [Line.ret (Expr.name "a")]⟩)],
    classes := [("K", ⟨[("mm", ⟨[], []⟩)]⟩)] }

/-- A mock filesystem with one module file defining `var m = 7`. -/
def c8st : St := { st0 with fs := [("m.msl", [Line.varAssign "m" (Expr.lit (Value.int 7))])] }

/-- A registry with a class `Counter`: `init` sets `this.n = 0`, `inc`
sets `this.n = n + 1` (reading the attribute through the flattened
`this` namespace). -/
def c10st : St :=
  { st0 with classes := [("Counter",
      ⟨[("init", ⟨[], [Line.varThisAttr "n" (Expr.lit (Value.int 0))]⟩),
        ("inc", ⟨[], [Line.varThisAttr "n"
          (Expr.add (Expr.name "n") (Expr.lit (Value.int 1)))]⟩)]⟩)] }

/-- The C10 scenario: create a Counter, then `loop 2` over a body that
calls `c.inc()` and assigns `var t = 1`, then read `c.n` after the loop. -/
def c10prog : List Line :=
  [Line.varNew "c" "Counter" [],
   Line.loopL (Expr.lit (Value.int 2)),
   Line.methodCall (Expr.name "c") "inc" [],
   Line.varAssign "t" (Expr.lit (Value.int 1)),
   Line.endloopL,
   Line.varAssign "r" (Expr.attr (Expr.name "c") "n")]

/-- A closer line is never an opener line. -/
theorem closer_not_opener (l : Line) (h : isCloser l = true) : isOpener l = false := by
  cases l <;> simp_all [isCloser, isOpener]

/-- A closer line is never a bare `else`. -/
theorem closer_not_else (l : Line) (h : isCloser l = true) : isElse l = false := by
  cases l <;> simp_all [isCloser, isElse]

/-- Taking the length of the left part of an append returns that part. -/
theorem take_append_self (xs ys : List Line) : (xs ++ ys).take xs.length = xs := by
  induction xs with
  | nil => rfl
  | cons x xs ih => simp [List.take, ih]

/-- Dropping one past the left part of an append skips its first closer. -/
theorem drop_append_succ (xs : List Line) (y : Line) (ys : List Line) :
    (xs ++ y :: ys).drop (xs.length + 1) = ys := by
  induction xs with
  | nil => rfl
  | cons x xs ih => simp [List.drop, ih]

/-- Running `execute` on an empty line list leaves the environment as the
first component, whatever the fuel. -/
theorem exec_nil_fst (fuel : Nat) (env : Env) (st : St) :
    (execute fuel [] env st).1 = env := by
  cases fuel <;> rfl

/-- On an empty line list, the state-and-flow part of `execute` does not
depend on the environment. -/
theorem exec_nil_snd (fuel : Nat) (env₁ env₂ : Env) (st : St) :
    (execute fuel [] env₁ st).2 = (execute fuel [] env₂ st).2 := by
  cases fuel <;> rfl

/-- The `if` scan over a well-nested, else-free branch followed by a
closer finds exactly that closer and records no `else`. -/
theorem scanIf_balanced (branch : List Line) :
    ∀ (i nest : Nat) (ep : Option Nat) (e : Line) (ls : List Line),
    ifBranchOk branch nest = true → isCloser e = true →
    scanIf (branch ++ e :: ls) i nest ep = (some (i + branch.length), ep) := by
  induction branch with
  | nil =>
    intro i nest ep e ls hb he
    have h0 : nest = 0 := by simpa [ifBranchOk] using hb
    subst h0
    simp [scanIf, closer_not_opener e he, he]
  | cons l branch ih =>
    intro i nest ep e ls hb he
    simp only [ifBranchOk] at hb
    simp only [List.cons_append, scanIf, List.append_eq]
    cases ho : isOpener l with
    | true =>
      simp only [ho, if_true] at hb ⊢
      rw [ih (i + 1) (nest + 1) ep e ls hb he]
      have : i + 1 + branch.length = i + (l :: branch).length := by
        simp [List.length_cons]; omega
      rw [this]
    | false =>
      simp only [ho, Bool.false_eq_true, if_false] at hb ⊢
      cases hc : isCloser l with
      | true =>
        simp only [hc, if_true] at hb ⊢
        cases nest with
        | zero => simp at hb
        | succ d =>
          simp only [Nat.succ_ne_zero] at hb ⊢
          simp only [show ((d + 1 : Nat) == 0) = false by simp] at hb ⊢
          simp only [Bool.false_eq_true, if_false]
          rw [show d + 1 - 1 = d from rfl]
          rw [ih (i + 1) d ep e ls hb he]
          have : i + 1 + branch.length = i + (l :: branch).length := by
            simp [List.length_cons]; omega
          rw [this]
      | false =>
        simp only [hc, Bool.false_eq_true, if_false] at hb ⊢
        cases hel : (isElse l && nest == 0) with
        | true =>
          simp only [hel] at hb
          simp at hb
        | false =>
          simp only [hel, Bool.false_eq_true, if_false] at hb ⊢
          rw [ih (i + 1) nest ep e ls hb he]
          have : i + 1 + branch.length = i + (l :: branch).length := by
            simp [List.length_cons]; omega
          rw [this]

/-- The `loop` scan over a well-nested body followed by a closer finds
exactly that closer. -/
theorem scanLoop_balanced (body : List Line) :
    ∀ (i nest : Nat) (e : Line) (ls : List Line),
    loopBodyOk body nest = true → isCloser e = true →
    scanLoop (body ++ e :: ls) i nest = some (i + body.length) := by
  induction body with
  | nil =>
    intro i nest e ls hb he
    have h0 : nest = 0 := by simpa [loopBodyOk] using hb
    subst h0
    simp [scanLoop, closer_not_opener e he, he]
  | cons l body ih =>
    intro i nest e ls hb he
    simp only [loopBodyOk] at hb
    simp only [List.cons_append, scanLoop, List.append_eq]
    cases ho : isOpener l with
    | true =>
      simp only [ho, if_true] at hb ⊢
      rw [ih (i + 1) (nest + 1) e ls hb he]
      have : i + 1 + body.length = i + (l :: body).length := by
        simp [List.length_cons]; omega
      rw [this]
    | false =>
      simp only [ho, Bool.false_eq_true, if_false] at hb ⊢
      cases hc : isCloser l with
      | true =>
        simp only [hc, if_true] at hb ⊢
        cases nest with
        | zero => simp at hb
        | succ d =>
          simp only [show ((d + 1 : Nat) == 0) = false by simp] at hb ⊢
          simp only [Bool.false_eq_true, if_false]
          rw [show d + 1 - 1 = d from rfl]
          rw [ih (i + 1) d e ls hb he]
          have : i + 1 + body.length = i + (l :: body).length := by
            simp [List.length_cons]; omega
          rw [this]
      | false =>
        simp only [hc, Bool.false_eq_true, if_false] at hb ⊢
        rw [ih (i + 1) nest e ls hb he]
        have : i + 1 + body.length = i + (l :: body).length := by
          simp [List.length_cons]; omega
        rw [this]

/-- Claim C6: the Expression Evaluator is total towards its caller: when
the underlying evaluation raises any error (name error, type error,
attribute error), `safe_eval` returns the explicit absence-of-value
result `Value.none` instead of propagating the fault
(main.py lines 64-67). -/
theorem claim6_safe_eval_total (st : St) (env : Env) (e : Expr) (err : EvalError)
    (h : rawEval st (evalLocals st env) e = Except.error err) :
    safe_eval st env e = Value.none := by
  simp [safe_eval, h]

/-- Witness for C6 at a concrete failing expression (an unknown name). -/
theorem claim6_witness :
    rawEval st0 (evalLocals st0 []) (Expr.name "zz")
        = Except.error (EvalError.nameError "zz")
      ∧ safe_eval st0 [] (Expr.name "zz") = Value.none :=
  ⟨rfl, claim6_safe_eval_total st0 [] (Expr.name "zz") (EvalError.nameError "zz") rfl⟩

/-- Claim C9: for a general assignment `var NAME = EXPR`, whenever the
evaluated result is the null value — including when EXPR is literally
`None` — the statement prints a diagnostic and leaves the environment
(NAME's prior binding or absence) unchanged; execution continues at the
next line (main.py lines 269-274). -/
theorem claim9_null_assignment_rejected (fuel : Nat) (n : String) (e : Expr)
    (rest : List Line) (env : Env) (st : St)
    (h : safe_eval st env e = Value.none) :
    execute (fuel + 1) (Line.varAssign n e :: rest) env st
      = execute fuel rest env (addOut st (msgBadVar n)) := by
  simp only [execute, h]

/-- Witness for C9 at the concrete statement `var x = None`: the literal
null evaluates to the null value and the assignment is rejected. -/
theorem claim9_witness :
    safe_eval st0 [] (Expr.lit Value.none) = Value.none
      ∧ execute 3 [Line.varAssign "x" (Expr.lit Value.none)] [] st0
          = execute 2 [] [] (addOut st0 (msgBadVar "x")) :=
  ⟨rfl, claim9_null_assignment_rejected 2 "x" (Expr.lit Value.none) [] [] st0 rfl⟩

/-- Counterexample to claim C1.  In the state `c1st`, the nested Executor
invocation over the conditional's line subsequence does return `5`
(first conjunct), but running `var r = f()` binds `r` to the null value,
not to `5`: the caller frame of the nested invocation (the body's
top-level invocation) discards the returned value (main.py line 358
ignores the result of `execute`), so the function call produces `None`
and `r = None` — contradicting the claim that the value is forwarded
onward as the call's result. -/
theorem claim1_counterexample :
    execute 9 [Line.ret (Expr.lit (Value.int 5))] [] c1st
        = ([], c1st, Flow.next (Value.int 5))
      ∧ execute 10 [Line.varCall "r" "f" []] [] c1st
        = ([("r", Value.none)], c1st, Flow.next Value.none) :=
  ⟨rfl, rfl⟩

/-- Claim C1 as amended: a `return` inside a conditional block exits only
the nested Executor invocation over the conditional's line subsequence;
the immediate caller frame DISCARDS that returned value rather than
forwarding it.  Formally: whenever the taken branch's nested invocation
finishes with `Flow.next v`, execution resumes after the `endif` with the
branch's environment and state, and the overall outcome does not depend
on `v` at all (the right-hand side does not mention `v`). -/
theorem claim1_return_discarded (fuel : Nat) (c : Expr) (branch rest : List Line)
    (env : Env) (st : St) (env' : Env) (st' : St) (v : Value)
    (hok : ifBranchOk branch 0 = true)
    (ht : truthy (safe_eval st env c) = true)
    (hbr : execute fuel branch env st = (env', st', Flow.next v)) :
    execute (fuel + 1) (Line.ifL c :: (branch ++ Line.endifL :: rest)) env st
      = execute fuel rest env' st' := by
  have hscan := scanIf_balanced branch 0 0 Option.none Line.endifL rest hok rfl
  rw [Nat.zero_add] at hscan
  simp only [execute, hscan, ht, if_true, take_append_self, drop_append_succ, hbr]

/-- Single step of the executor on a successful general assignment: the
binding is added to the caller's environment and execution continues. -/
theorem exec_varAssign_some (fuel : Nat) (n : String) (e : Expr)
    (rest : List Line) (env : Env) (st : St) (v : Value)
    (h : safe_eval st env e = v) (hn : v ≠ Value.none) :
    execute (fuel + 1) (Line.varAssign n e :: rest) env st
      = execute fuel rest (setA env n v) st := by
  cases v with
  | none => exact absurd rfl hn
  | int m => simp only [execute, h]
  | str s => simp only [execute, h]
  | bool b => simp only [execute, h]
  | inst r => simp only [execute, h]

/-- The executor on an exhausted line list returns the environment with a
null value. -/
theorem exec_nil (fuel : Nat) (env : Env) (st : St) :
    execute (fuel + 1) [] env st = (env, st, Flow.next Value.none) := rfl

/-- Single step of the executor on an `if` whose scan found an `else` and
whose condition is truthy: the then-branch runs against the caller's
environment, its result value is dropped, and execution resumes after the
`endif` with the branch's environment and state. -/
theorem exec_if_true_else (fuel : Nat) (c : Expr) (rest : List Line)
    (env : Env) (st : St) (endPos ep : Nat) (env' : Env) (st' : St) (v : Value)
    (hscan : scanIf rest 0 0 Option.none = (some endPos, some ep))
    (ht : truthy (safe_eval st env c) = true)
    (hbr : execute fuel (rest.take ep) env st = (env', st', Flow.next v)) :
    execute (fuel + 1) (Line.ifL c :: rest) env st
      = execute fuel (rest.drop (endPos + 1)) env' st' := by
  simp only [execute, hscan, ht, if_true, hbr]

/-- Single step of the executor on an `if` whose scan found an `else` and
whose condition is falsy: symmetrically, the else-branch runs against the
caller's environment. -/
theorem exec_if_false_else (fuel : Nat) (c : Expr) (rest : List Line)
    (env : Env) (st : St) (endPos ep : Nat) (env' : Env) (st' : St) (v : Value)
    (hscan : scanIf rest 0 0 Option.none = (some endPos, some ep))
    (ht : truthy (safe_eval st env c) = false)
    (hbr : execute fuel ((rest.drop (ep + 1)).take (endPos - (ep + 1))) env st
        = (env', st', Flow.next v)) :
    execute (fuel + 1) (Line.ifL c :: rest) env st
      = execute fuel (rest.drop (endPos + 1)) env' st' := by
  simp only [execute, hscan, ht, Bool.false_eq_true, if_false, hbr]

/-- Claim C3: a `loop N` block hands every iteration the environment
snapshotted at loop entry (`runLoop` passes the same `env` to each
iteration and discards the environments the iterations produce, modelling
the per-iteration `variables.copy()`), and after the loop the caller
continues with its own unchanged environment `env` — so no binding made
inside the body is visible to the next iteration or to the caller. -/
theorem claim3_loop_env_isolation (fuel : Nat) (t : Expr) (n : Int)
    (body rest : List Line) (env : Env) (st : St)
    (ht : safe_eval st env t = Value.int n)
    (hok : loopBodyOk body 0 = true) :
    execute (fuel + 1) (Line.loopL t :: (body ++ Line.endloopL :: rest)) env st
      = match runLoop fuel body env n.toNat st with
        | (st', Option.none) => execute fuel rest env st'
        | (st', some f) => (env, st', f) := by
  have hscan := scanLoop_balanced body 0 0 Line.endloopL rest hok rfl
  rw [Nat.zero_add] at hscan
  simp only [execute, ht, hscan, take_append_self, drop_append_succ]

/-- Witness for C3 at the concrete block `loop 3` / `var c = 1` /
`endloop`. -/
theorem claim3_witness :
    safe_eval st0 [] (Expr.lit (Value.int 3)) = Value.int 3
      ∧ loopBodyOk [Line.varAssign "c" (Expr.lit (Value.int 1))] 0 = true
      ∧ execute 6 (Line.loopL (Expr.lit (Value.int 3))
            :: ([Line.varAssign "c" (Expr.lit (Value.int 1))] ++ Line.endloopL :: [])) [] st0
          = match runLoop 5 [Line.varAssign "c" (Expr.lit (Value.int 1))] [] ((3 : Int).toNat) st0 with
            | (st', Option.none) => execute 5 [] [] st'
            | (st', some f) => ([], st', f) :=
  ⟨rfl, rfl,
   claim3_loop_env_isolation 5 (Expr.lit (Value.int 3)) 3
     [Line.varAssign "c" (Expr.lit (Value.int 1))] [] [] st0 rfl rfl⟩

/-- Claim C4: an `if` block with an `else` executes the chosen branch
against the caller's own Environment, so an assignment made in the taken
branch (`var n1 = e1` when the condition is truthy, `var n2 = e2` when it
is falsy) is visible in the caller's environment after the `endif`:
execution of the rest of the script continues with the updated
environment. -/
theorem claim4_if_shares_env (fuel : Nat) (c : Expr) (n1 n2 : String)
    (e1 e2 : Expr) (rest : List Line) (env : Env) (st : St) (v1 v2 : Value)
    (h1 : safe_eval st env e1 = v1) (h1n : v1 ≠ Value.none)
    (h2 : safe_eval st env e2 = v2) (h2n : v2 ≠ Value.none) :
    execute (fuel + 1 + 1 + 1) (Line.ifL c :: Line.varAssign n1 e1 :: Line.elseL
        :: Line.varAssign n2 e2 :: Line.endifL :: rest) env st
      = execute (fuel + 1 + 1) rest
          (if truthy (safe_eval st env c) then setA env n1 v1 else setA env n2 v2) st := by
  cases htr : truthy (safe_eval st env c) with
  | true =>
    rw [if_pos rfl]
    refine exec_if_true_else (fuel + 1 + 1) c _ env st 3 1 (setA env n1 v1) st Value.none rfl htr ?_
    show execute (fuel + 1 + 1) [Line.varAssign n1 e1] env st = _
    rw [exec_varAssign_some (fuel + 1) n1 e1 [] env st v1 h1 h1n]
    exact exec_nil fuel (setA env n1 v1) st
  | false =>
    rw [if_neg (by simp)]
    refine exec_if_false_else (fuel + 1 + 1) c _ env st 3 1 (setA env n2 v2) st Value.none rfl htr ?_
    show execute (fuel + 1 + 1) [Line.varAssign n2 e2] env st = _
    rw [exec_varAssign_some (fuel + 1) n2 e2 [] env st v2 h2 h2n]
    exact exec_nil fuel (setA env n2 v2) st

/-- Witness for C4 at the concrete block
`if True` / `var x = 1` / `else` / `var y = 2` / `endif`. -/
theorem claim4_witness :
    safe_eval st0 [] (Expr.lit (Value.int 1)) = Value.int 1
      ∧ Value.int 1 ≠ Value.none
      ∧ safe_eval st0 [] (Expr.lit (Value.int 2)) = Value.int 2
      ∧ Value.int 2 ≠ Value.none
      ∧ execute 3 (Line.ifL (Expr.lit (Value.bool true))
            :: Line.varAssign "x" (Expr.lit (Value.int 1)) :: Line.elseL
            :: Line.varAssign "y" (Expr.lit (Value.int 2)) :: Line.endifL :: []) [] st0
          = execute 2 []
              (if truthy (safe_eval st0 [] (Expr.lit (Value.bool true)))
               then setA [] "x" (Value.int 1) else setA [] "y" (Value.int 2)) st0 :=
  ⟨rfl, by decide, rfl, by decide,
   claim4_if_shares_env 0 (Expr.lit (Value.bool true)) "x" "y"
     (Expr.lit (Value.int 1)) (Expr.lit (Value.int 2)) [] [] st0
     (Value.int 1) (Value.int 2) rfl (by decide) rfl (by decide)⟩

/-- Witness for the amended C1, at the concrete block
`if True` / `return 5` / `endif`: the branch returns `5` and the caller
continues as if no value had been produced. -/
theorem claim1_witness :
    ifBranchOk [Line.ret (Expr.lit (Value.int 5))] 0 = true
      ∧ truthy (safe_eval st0 [] (Expr.lit (Value.bool true))) = true
      ∧ execute 3 [Line.ret (Expr.lit (Value.int 5))] [] st0
          = ([], st0, Flow.next (Value.int 5))
      ∧ execute 4 (Line.ifL (Expr.lit (Value.bool true))
            :: ([Line.ret (Expr.lit (Value.int 5))] ++ Line.endifL :: [])) [] st0
          = execute 3 [] [] st0 :=
  ⟨rfl, rfl, rfl,
   claim1_return_discarded 3 (Expr.lit (Value.bool true))
     [Line.ret (Expr.lit (Value.int 5))] [] [] st0 [] st0 (Value.int 5) rfl rfl rfl⟩

/-- Counterexample to claim C2.  The class `C` defines `init` with one
declared parameter, but the statement `var p = new C()` supplies zero
arguments.  The claim says the statement must be aborted with a
diagnostic, `init` not invoked and `p` not bound.  The code instead: runs
`init` (the attribute `x` was written — with the unbound parameter
evaluating to the null value), binds `p` to the new instance, and prints
nothing (the output transcript stays empty): there is no argument-count
check in the instantiation path (main.py lines 171-183). -/
theorem claim2_counterexample :
    execute 10 [Line.varNew "p" "C" []] [] c2st
      = ([("p", Value.inst 0)],
         { c2st with heap := [⟨"C", [("x", Value.none)]⟩] },
         Flow.next Value.none) := rfl

/-- Claim C2 as amended: when CLASS is defined and has an `init` method,
`var NAME = new CLASS(args)` always builds the fresh instance and invokes
`init` in a fresh Environment seeded with `this` and the positionally
zipped arguments — regardless of whether the argument count matches the
declared parameter count (extra arguments are dropped, missing parameters
stay unbound; no diagnostic) — and then binds the instance to NAME in the
caller's Environment. -/
theorem claim2_init_always_runs (fuel : Nat) (name cls : String)
    (args : List Expr) (rest : List Line) (env : Env) (st : St)
    (ci : ClassInfo) (initf : FuncInfo) (envb : Env) (stb : St) (v : Value)
    (hcls : getA st.classes cls = some ci)
    (hinit : getA ci.methods "init" = some initf)
    (hbody : execute fuel initf.body
        (bindArgs initf.args
          (args.map (safe_eval { st with heap := st.heap ++ [⟨cls, []⟩] } env))
          [("this", Value.inst st.heap.length)])
        { st with heap := st.heap ++ [⟨cls, []⟩] } = (envb, stb, Flow.next v)) :
    execute (fuel + 1) (Line.varNew name cls args :: rest) env st
      = execute fuel rest (setA env name (Value.inst st.heap.length)) stb := by
  simp only [execute, hcls, hinit, hbody]

/-- Witness for the amended C2 at the mismatched call `var p = new C()`
(zero arguments against one declared parameter): `init` runs and `p` is
bound. -/
theorem claim2_witness :
    getA c2st.classes "C" = some ⟨[("init", c2init)]⟩
      ∧ getA (ClassInfo.mk [("init", c2init)]).methods "init" = some c2init
      ∧ execute 2 c2init.body
          (bindArgs c2init.args
            (([] : List Expr).map (safe_eval { c2st with heap := c2st.heap ++ [⟨"C", []⟩] } []))
            [("this", Value.inst c2st.heap.length)])
          { c2st with heap := c2st.heap ++ [⟨"C", []⟩] }
        = ([("this", Value.inst 0)],
           { c2st with heap := [⟨"C", [("x", Value.none)]⟩] }, Flow.next Value.none)
      ∧ execute 3 [Line.varNew "p" "C" []] [] c2st
        = execute 2 [] (setA [] "p" (Value.inst c2st.heap.length))
            { c2st with heap := [⟨"C", [("x", Value.none)]⟩] } :=
  ⟨rfl, rfl, rfl,
   claim2_init_always_runs 2 "p" "C" [] [] [] c2st ⟨[("init", c2init)]⟩ c2init
     [("this", Value.inst 0)] { c2st with heap := [⟨"C", [("x", Value.none)]⟩] }
     Value.none rfl rfl rfl⟩

/-- A statement-level continuation on the empty rest-list preserves each
caller environment and yields an environment-independent state/flow. -/
theorem exec_nil_triple (fuel : Nat) (env1 env2 : Env) (stc : St) :
    (execute fuel [] env1 stc).1 = env1
      ∧ (execute fuel [] env2 stc).1 = env2
      ∧ (execute fuel [] env1 stc).2 = (execute fuel [] env2 stc).2 :=
  ⟨exec_nil_fst fuel env1 stc, exec_nil_fst fuel env2 stc, exec_nil_snd fuel env1 env2 stc⟩

/-- Claim C5: call isolation.  A bare function-call statement and a
method-call statement (a) leave the caller's environment unchanged, and
(b) produce a state and flow that depend on the caller's environment only
through the evaluated argument values (and, for methods, the evaluated
receiver): two caller environments whose argument evaluations agree
produce identical outcomes.  The callee runs in the brand-new environment
`bindArgs fi.args ... []` (plus `this` for methods) containing only the
positionally bound parameters — no closure over the caller. -/
theorem claim5_call_isolation (fuel : Nat) (fname m : String) (args : List Expr)
    (obj : Expr) (env1 env2 : Env) (st : St)
    (hargs : args.map (safe_eval st env1) = args.map (safe_eval st env2))
    (hobj : safe_eval st env1 obj = safe_eval st env2 obj) :
    ((execute (fuel + 1) [Line.funcCall fname args] env1 st).1 = env1
      ∧ (execute (fuel + 1) [Line.funcCall fname args] env2 st).1 = env2
      ∧ (execute (fuel + 1) [Line.funcCall fname args] env1 st).2
          = (execute (fuel + 1) [Line.funcCall fname args] env2 st).2)
    ∧ ((execute (fuel + 1) [Line.methodCall obj m args] env1 st).1 = env1
      ∧ (execute (fuel + 1) [Line.methodCall obj m args] env2 st).1 = env2
      ∧ (execute (fuel + 1) [Line.methodCall obj m args] env1 st).2
          = (execute (fuel + 1) [Line.methodCall obj m args] env2 st).2) := by
  constructor
  · cases hf : getA st.funcs fname with
    | none =>
      simp only [execute, hf]
      exact exec_nil_triple fuel env1 env2 (addOut st msgUnknown)
    | some fi =>
      cases hlen : (args.length != fi.args.length) with
      | true =>
        simp [execute, hf, hlen]
        exact exec_nil_triple fuel env1 env2 (addOut st (msgArgCount fname))
      | false =>
        have hbody : execute fuel fi.body (bindArgs fi.args (args.map (safe_eval st env1)) []) st
            = execute fuel fi.body (bindArgs fi.args (args.map (safe_eval st env2)) []) st := by
          rw [hargs]
        rcases hb : execute fuel fi.body (bindArgs fi.args (args.map (safe_eval st env2)) []) st
          with ⟨envb, stb, flow⟩
        have hb1 : execute fuel fi.body (bindArgs fi.args (args.map (safe_eval st env1)) []) st
            = (envb, stb, flow) := by rw [hbody, hb]
        cases flow with
        | next v =>
          simp only [execute, hf, hlen, Bool.false_eq_true, if_false, hb, hb1]
          exact exec_nil_triple fuel env1 env2 stb
        | exited =>
          simp only [execute, hf, hlen, Bool.false_eq_true, if_false, hb, hb1]
          exact ⟨trivial, trivial, trivial⟩
        | fuelOut =>
          simp only [execute, hf, hlen, Bool.false_eq_true, if_false, hb, hb1]
          exact ⟨trivial, trivial, trivial⟩
  · simp only [execute, hobj]
    cases ho : safe_eval st env2 obj with
    | inst r =>
      cases hc : getA st.classes (st.heap.getD r ⟨"", []⟩).className with
      | none =>
        simp only [hc]
        exact exec_nil_triple fuel env1 env2 (addOut st (msgNoMethod m))
      | some ci =>
        cases hm : getA ci.methods m with
        | none =>
          simp only [hc, hm]
          exact exec_nil_triple fuel env1 env2 (addOut st (msgNoMethod m))
        | some mi =>
          have hbody : execute fuel mi.body
              (bindArgs mi.args (args.map (safe_eval st env1)) [("this", Value.inst r)]) st
              = execute fuel mi.body
                  (bindArgs mi.args (args.map (safe_eval st env2)) [("this", Value.inst r)]) st := by
            rw [hargs]
          rcases hb : execute fuel mi.body
              (bindArgs mi.args (args.map (safe_eval st env2)) [("this", Value.inst r)]) st
            with ⟨envb, stb, flow⟩
          have hb1 : execute fuel mi.body
              (bindArgs mi.args (args.map (safe_eval st env1)) [("this", Value.inst r)]) st
              = (envb, stb, flow) := by rw [hbody, hb]
          cases flow with
          | next v =>
            simp only [hc, hm, hb, hb1]
            exact exec_nil_triple fuel env1 env2 stb
          | exited =>
            simp only [hc, hm, hb, hb1]
            exact ⟨trivial, trivial, trivial⟩
          | fuelOut =>
            simp only [hc, hm, hb, hb1]
            exact ⟨trivial, trivial, trivial⟩
    | none => exact exec_nil_triple fuel env1 env2 (addOut st msgNotObject)
    | int nn => exact exec_nil_triple fuel env1 env2 (addOut st msgNotObject)
    | str sv => exact exec_nil_triple fuel env1 env2 (addOut st msgNotObject)
    | bool b => exact exec_nil_triple fuel env1 env2 (addOut st msgNotObject)

/-- Witness for C5: caller environments `[secret = 9, o = K-instance]`
and `[o = K-instance]` differ in an unpassed variable but agree on the
argument `5` and the receiver `o`; the calls behave identically. -/
theorem claim5_witness :
    ([Expr.lit (Value.int 5)].map
        (safe_eval c5st [("secret", Value.int 9), ("o", Value.inst 0)]))
      = ([Expr.lit (Value.int 5)].map (safe_eval c5st [("o", Value.inst 0)]))
      ∧ safe_eval c5st [("secret", Value.int 9), ("o", Value.inst 0)] (Expr.name "o")
          = safe_eval c5st [("o", Value.inst 0)] (Expr.name "o")
      ∧ (((execute 5 [Line.funcCall "f" [Expr.lit (Value.int 5)]]
            [("secret", Value.int 9), ("o", Value.inst 0)] c5st).1
              = [("secret", Value.int 9), ("o", Value.inst 0)]
          ∧ (execute 5 [Line.funcCall "f" [Expr.lit (Value.int 5)]]
              [("o", Value.inst 0)] c5st).1 = [("o", Value.inst 0)]
          ∧ (execute 5 [Line.funcCall "f" [Expr.lit (Value.int 5)]]
              [("secret", Value.int 9), ("o", Value.inst 0)] c5st).2
              = (execute 5 [Line.funcCall "f" [Expr.lit (Value.int 5)]]
                  [("o", Value.inst 0)] c5st).2)
        ∧ ((execute 5 [Line.methodCall (Expr.name "o") "mm" [Expr.lit (Value.int 5)]]
              [("secret", Value.int 9), ("o", Value.inst 0)] c5st).1
              = [("secret", Value.int 9), ("o", Value.inst 0)]
          ∧ (execute 5 [Line.methodCall (Expr.name "o") "mm" [Expr.lit (Value.int 5)]]
              [("o", Value.inst 0)] c5st).1 = [("o", Value.inst 0)]
          ∧ (execute 5 [Line.methodCall (Expr.name "o") "mm" [Expr.lit (Value.int 5)]]
              [("secret", Value.int 9), ("o", Value.inst 0)] c5st).2
              = (execute 5 [Line.methodCall (Expr.name "o") "mm" [Expr.lit (Value.int 5)]]
                  [("o", Value.inst 0)] c5st).2)) :=
  ⟨rfl, rfl,
   claim5_call_isolation 4 "f" "mm" [Expr.lit (Value.int 5)] (Expr.name "o")
     [("secret", Value.int 9), ("o", Value.inst 0)] [("o", Value.inst 0)] c5st rfl rfl⟩

/-- Claim C7: on every exit path of the Module Loader — fuel exhaustion,
file-not-found, and every way the module's execution can finish — the
caller's (function registry, class registry) pair is restored to exactly
its pre-call value (the `finally` of main.py lines 572-575). -/
theorem claim7_loader_restores_registries (fuel : Nat) (st : St) (path : String) :
    ((load_module fuel st path).2).funcs = st.funcs
      ∧ ((load_module fuel st path).2).classes = st.classes := by
  cases fuel with
  | zero => exact ⟨rfl, rfl⟩
  | succ fuel =>
    simp only [load_module]
    split
    · exact ⟨rfl, rfl⟩
    · split <;> exact ⟨rfl, rfl⟩

/-- Claim C8: the `steal SYMBOL from PATH` statement checks the loaded
module's variables, then its functions, then its classes — the first
category containing SYMBOL wins, and exactly that one symbol is copied
into the caller-side Environment or registry; a symbol absent from every
category is reported as an import error and a missing file is reported
with a separate message; in every reported-error case the script
continues at the next line (main.py lines 116-139). -/
theorem claim8_steal_first_match (fuel : Nat) (s p : String) (rest : List Line)
    (env : Env) (st : St) (res : LoadRes) (st2 : St)
    (hload : load_module fuel st p = (res, st2)) :
    execute (fuel + 1) (Line.steal s p :: rest) env st
      = match res with
        | LoadRes.ok mv mf mc =>
          (match getA mv s with
           | some v => execute fuel rest (setA env s v) st2
           | Option.none =>
             match getA mf s with
             | some fi => execute fuel rest env (setFun st2 s fi)
             | Option.none =>
               match getA mc s with
               | some ci => execute fuel rest env (setCls st2 s ci)
               | Option.none => execute fuel rest env (addOut st2 (msgImportNotFound s p)))
        | LoadRes.fileNotFound => execute fuel rest env (addOut st2 (msgFileNotFound p))
        | LoadRes.exited => (env, st2, Flow.exited)
        | LoadRes.fuelOut => (env, st2, Flow.fuelOut) := by
  cases res with
  | ok mv mf mc =>
    cases hmv : getA mv s with
    | some v => simp only [execute, hload, hmv]
    | none =>
      cases hmf : getA mf s with
      | some fi => simp only [execute, hload, hmv, hmf]
      | none =>
        cases hmc : getA mc s with
        | some ci => simp only [execute, hload, hmv, hmf, hmc]
        | none => simp only [execute, hload, hmv, hmf, hmc]
  | fileNotFound => simp only [execute, hload]
  | exited => simp only [execute, hload]
  | fuelOut => simp only [execute, hload]

/-- Witness for C8: stealing the variable `m` from a module file that
binds `var m = 7` copies exactly that binding into the caller's
environment and continues. -/
theorem claim8_witness :
    load_module 3 c8st "m.msl" = (LoadRes.ok [("m", Value.int 7)] [] [], c8st)
      ∧ execute 4 [Line.steal "m" "m.msl"] [] c8st
        = match LoadRes.ok [("m", Value.int 7)] ([] : List (String × FuncInfo))
              ([] : List (String × ClassInfo)) with
          | LoadRes.ok mv mf mc =>
            (match getA mv "m" with
             | some v => execute 3 [] (setA [] "m" v) c8st
             | Option.none =>
               match getA mf "m" with
               | some fi => execute 3 [] [] (setFun c8st "m" fi)
               | Option.none =>
                 match getA mc "m" with
                 | some ci => execute 3 [] [] (setCls c8st "m" ci)
                 | Option.none => execute 3 [] [] (addOut c8st (msgImportNotFound "m" "m.msl")))
          | LoadRes.fileNotFound => execute 3 [] [] (addOut c8st (msgFileNotFound "m.msl"))
          | LoadRes.exited => ([], c8st, Flow.exited)
          | LoadRes.fuelOut => ([], c8st, Flow.fuelOut) :=
  ⟨rfl, claim8_steal_first_match 3 "m" "m.msl" [] [] c8st
     (LoadRes.ok [("m", Value.int 7)] [] []) c8st rfl⟩

/-- Claim C10: the per-iteration loop environment is a shallow copy.
Running `c10prog` — `var c = new Counter()`, then `loop 2` over
`c.inc()` / `var t = 1`, then `var r = c.n` — ends with the shared heap
instance mutated to `n = 2`: the attribute write of iteration one is seen
by iteration two and by the caller after the loop (`r = 2`), while the
per-iteration binding `t` is invisible to the caller (absent from the
final environment). -/
theorem claim10_loop_shares_heap :
    execute 20 c10prog [] c10st
      = ([("r", Value.int 2), ("c", Value.inst 0)],
         { c10st with heap := [⟨"Counter", [("n", Value.int 2)]⟩] },
         Flow.next Value.none)
      ∧ getA (execute 20 c10prog [] c10st).1 "t" = Option.none
      ∧ getA (execute 20 c10prog [] c10st).1 "r" = some (Value.int 2) :=
  ⟨rfl, rfl, rfl⟩

end MSlash
